import Mathlib

/-!
# Task store of `database/database.go`

The Go module keeps one table, `scheduler`, in an embedded SQL engine and
talks to it through seven fixed SQL texts.  The development below embeds

* the Go values the functions return (`Task`, slices that may be `nil`,
  `error` values),
* the table as the list of its rows in rowid order, together with the
  AUTOINCREMENT counter the engine keeps for it,
* the part of the engine the statements use: a lexer and a parser for the
  `SELECT` texts (copied verbatim from the source), `LIKE` with its limit on
  the pattern and its reading of texts up to the first NUL, the BINARY
  text order, `ORDER BY`, `LIMIT`, rowid allocation,
* what Go sees of a running `SELECT`: the rows `rows.Next()` delivers and the
  error `rows.Err()` reports after them, and
* the seven Go functions, statement by statement.

Go strings are held as Lean strings (sequences of code points); the engine's
BINARY collation compares UTF-8 bytes, which orders valid UTF-8 text exactly
as its code points.  Faults of the file system and values beyond the
engine's cap of 1,000,000,000 bytes on one value are not part of the model.
-/

namespace Database

/-! ## Go values -/

/-- Go `error` value, identified by its message; `Option GoError` is a Go
`error` that may be `nil`. -/
structure GoError where
  msg : String
deriving DecidableEq, Repr

/-- Modelled from the spec: the record `model.Task` of the package
`github.com/Ikamenev/model`, which the source imports; the spec gives its
fields as `Id (integer), Date (string), Title (string), Comment (string),
Repeat (string)`. -/
structure Task where
  Id : Int
  Date : String
  Title : String
  Comment : String
  Repeat : String
deriving DecidableEq, Repr

/-- The zero value `model.Task{}`. -/
def Task.zero : Task := ⟨0, "", "", "", ""⟩

/-- Go slice: either `nil` or an allocated, possibly empty, sequence. -/
inductive Slice (α : Type) where
  | nil : Slice α
  | mk (elems : List α) : Slice α
deriving DecidableEq, Repr

/-- The literal `[]model.Task{}`: empty and not `nil`. -/
def Slice.empty {α : Type} : Slice α := Slice.mk []

/-- Go `tasks == nil`. -/
def Slice.isNil {α : Type} : Slice α → Bool
  | Slice.nil => true
  | Slice.mk _ => false

/-- Go `append(tasks, x)`: the result is never `nil`. -/
def Slice.append {α : Type} : Slice α → α → Slice α
  | Slice.nil, x => Slice.mk [x]
  | Slice.mk xs, x => Slice.mk (xs ++ [x])

/-- The elements of a slice, in order. -/
def Slice.toList {α : Type} : Slice α → List α
  | Slice.nil => []
  | Slice.mk xs => xs

/-! ## Engine values, the table and its schema -/

/-- Value of the engine: what a bound argument or a result column holds. -/
inductive Value where
  | null : Value
  | integer (i : Int) : Value
  | text (s : String) : Value
deriving DecidableEq, Repr

/-- Columns of `scheduler`, in the order of the `CREATE TABLE` text:
`id INTEGER PRIMARY KEY AUTOINCREMENT`, `date VARCHAR(8) NULL`,
`title VARCHAR(64) NOT NULL`, `comment VARCHAR(255) NULL`,
`repeat VARCHAR(128) NULL`. -/
inductive Column where
  | cId | cDate | cTitle | cComment | cRepeat
deriving DecidableEq, Repr

/-- Column of the table with the given name (names are matched without
regard to ASCII case by the engine; the source writes them in lower case). -/
def Column.ofName (n : String) : Option Column :=
  if n = "id" then some Column.cId
  else if n = "date" then some Column.cDate
  else if n = "title" then some Column.cTitle
  else if n = "comment" then some Column.cComment
  else if n = "repeat" then some Column.cRepeat
  else none

/-- The state of the database file: the rows of `scheduler` in rowid order
(each row held as the `Task` that `Scan` decodes from it; every statement of
the module writes TEXT into the four text columns), and `seq`, the largest
rowid ever handed out, which AUTOINCREMENT keeps in `sqlite_sequence`. -/
structure Store where
  rows : List Task
  seq : Int
deriving DecidableEq, Repr

/-- The store right after `InitializationDatabase` has created the file and
the table. -/
def Store.init : Store := ⟨[], 0⟩

/-- Go `InitializationDatabase`: a missing file is created empty, an existing
one is opened, and `CREATE TABLE IF NOT EXISTS` leaves an existing table as
it is. -/
def InitializationDatabase : Option Store → Store
  | none => Store.init
  | some s => s

/-- Cell of a row. -/
def Task.cell (t : Task) : Column → Value
  | Column.cId => Value.integer t.Id
  | Column.cDate => Value.text t.Date
  | Column.cTitle => Value.text t.Title
  | Column.cComment => Value.text t.Comment
  | Column.cRepeat => Value.text t.Repeat

/-- The part of the engine that is left open: how the text bound to
`WHERE id = :id` is read as a rowid (NUMERIC affinity applied to a TEXT
operand).  `rowidOfText s = some n` says the text converts, without loss, to
the integer `n`; `none` says it stays text or becomes a non-integral REAL,
and then it equals no rowid. -/
structure Engine where
  rowidOfText : String → Option Int

/-! ## Decimal text of integers -/

/-- ASCII digit for `d < 10`. -/
def digitChar (d : Nat) : Char := Char.ofNat (48 + d)

/-- Decimal digits of `n`, most significant first; `fuel` bounds the number
of digits. -/
def natDigits : Nat → Nat → List Char
  | 0, _ => []
  | fuel + 1, n =>
    if n < 10 then [digitChar n] else natDigits fuel (n / 10) ++ [digitChar (n % 10)]

/-- Decimal text of an integer, as `strconv.Itoa` writes it. -/
def decimalText : Int → String
  | Int.ofNat n => String.mk (natDigits (n + 1) n)
  | Int.negSucc n => String.mk ('-' :: natDigits (n + 2) (n + 1))

/-- Value of an ASCII digit. -/
def digitValue (c : Char) : Option Nat :=
  if 48 ≤ c.toNat ∧ c.toNat ≤ 57 then some (c.toNat - 48) else none

/-- Value of a run of digits read left to right, starting from `acc`. -/
def readDigits : List Char → Nat → Option Nat
  | [], acc => some acc
  | c :: cs, acc =>
    match digitValue c with
    | none => none
    | some d => readDigits cs (acc * 10 + d)

/-- Whitespace the engine's number reader skips. -/
def isSpaceChar (c : Char) : Bool :=
  c = ' ' || c = '\t' || c = '\n' || c = '\r' || c.toNat = 11 || c.toNat = 12

/-- Integer written by a text of the form `[+-]digits`. -/
def readSigned : List Char → Option Int
  | [] => none
  | c :: cs =>
    if c = '-' then
      (match cs with
       | [] => none
       | _ :: _ => (readDigits cs 0).map (fun n => - (n : Int)))
    else if c = '+' then
      (match cs with
       | [] => none
       | _ :: _ => (readDigits cs 0).map (fun n => (n : Int)))
    else (readDigits (c :: cs) 0).map (fun n => (n : Int))

/-- The engine's reading of integer texts: blanks around the number are
skipped, a sign is allowed, and the rest must be decimal digits.  Texts the
engine reads as REAL (a fraction or an exponent is present) are answered
`none` here; the theorems that mention a text id hold for every `Engine`.
A numeral outside the 64-bit range, which the engine turns into a REAL, is
given its value: no row carries such a rowid, so no lookup differs. -/
def sqliteRowidOfText (s : String) : Option Int :=
  readSigned (((s.data.dropWhile isSpaceChar).reverse.dropWhile isSpaceChar).reverse)

/-- The engine with the integer reading above. -/
def sqlite : Engine := ⟨sqliteRowidOfText⟩

/-! ## Text comparison and LIKE -/

/-- BINARY collation on text: `a ≤ b`, comparing position by position, a
proper initial segment being smaller. -/
def textLE : List Char → List Char → Bool
  | [], _ => true
  | _ :: _, [] => false
  | a :: as, b :: bs =>
    if a.toNat < b.toNat then true
    else if b.toNat < a.toNat then false
    else textLE as bs

/-- Lower case of an ASCII letter, every other character unchanged: the
folding `LIKE` applies (it is case-insensitive for ASCII only). -/
def asciiLower (c : Char) : Char :=
  if 65 ≤ c.toNat ∧ c.toNat ≤ 90 then Char.ofNat (c.toNat + 32) else c

/-- The character the engine's UTF-8 reader returns for a character of a
valid text: itself, except that U+FFFE and U+FFFF are read as U+FFFD. -/
def utf8Read (c : Char) : Char :=
  if c.toNat = 65534 ∨ c.toNat = 65535 then Char.ofNat 65533 else c

/-- The engine's `patternCompare` for `LIKE`, on a pattern and a text that
end where the list ends: `%` stands for any run of characters, `_` for
exactly one, any other character for itself as the UTF-8 reader returns it
and up to ASCII case; there is no escape character. -/
def patternCompare : List Char → List Char → Bool
  | [], s => s.isEmpty
  | p :: ps, s =>
    if p = '%' then s.tails.any (patternCompare ps)
    else if p = '_' then
      (match s with
       | [] => false
       | _ :: s1 => patternCompare ps s1)
    else
      (match s with
       | [] => false
       | c :: s1 =>
         asciiLower (utf8Read p) == asciiLower (utf8Read c) && patternCompare ps s1)

/-- The text as a C string: what precedes its first NUL.  `LIKE` reads its
pattern and its text this way. -/
def cText (s : List Char) : List Char := s.takeWhile (fun c => c.toNat ≠ 0)

/-- Does the text match the `LIKE` pattern?  Pattern and text are compared
as C strings, so each counts up to its first NUL only. -/
def likeMatch (pattern text : List Char) : Bool :=
  patternCompare (cText pattern) (cText text)

/-- Number of bytes of a character in UTF-8. -/
def utf8Size (c : Char) : Nat :=
  if c.toNat ≤ 127 then 1 else if c.toNat ≤ 2047 then 2 else if c.toNat ≤ 65535 then 3 else 4

/-- Number of bytes of a text in UTF-8: Go `len` of the string, and the
length the engine sees of a bound text (a NUL counts as one byte). -/
def utf8Length (s : List Char) : Nat :=
  s.foldl (fun n c => n + utf8Size c) 0

/-- The engine's limit on the bytes of a `LIKE` pattern. -/
def SQLITE_MAX_LIKE_PATTERN_LENGTH : Nat := 50000

/-- The engine's cap on the bytes of one value.  Binding a longer text is
refused by the engine; the model leaves that refusal out, and what is stated
about texts of any length is stated below this cap. -/
def SQLITE_MAX_LENGTH : Nat := 1000000000

/-- Error of `LIKE` on a pattern above the limit. -/
def errLikeTooComplex : GoError := ⟨"LIKE or GLOB pattern too complex"⟩

/-! ## The engine's front end for `SELECT` texts -/

/-- Token of a statement text. -/
inductive Token where
  | kSELECT | kFROM | kWHERE | kORDER | kBY | kASC | kDESC | kLIMIT | kLIKE | kOR
  | comma
  | eq
  | ident (name : String)
  | param (name : String)
  | number (n : Nat)
  | illegal (text : String)
deriving DecidableEq, Repr

/-- Text of a token, for error messages. -/
def Token.text : Token → String
  | Token.kSELECT => "SELECT"
  | Token.kFROM => "FROM"
  | Token.kWHERE => "WHERE"
  | Token.kORDER => "ORDER"
  | Token.kBY => "BY"
  | Token.kASC => "ASC"
  | Token.kDESC => "DESC"
  | Token.kLIMIT => "LIMIT"
  | Token.kLIKE => "LIKE"
  | Token.kOR => "OR"
  | Token.comma => ","
  | Token.eq => "="
  | Token.ident n => n
  | Token.param n => ":" ++ n
  | Token.number n => decimalText (Int.ofNat n)
  | Token.illegal t => t

/-- Characters of identifiers, keywords and numbers. -/
def isIdChar (c : Char) : Bool :=
  (97 ≤ c.toNat && c.toNat ≤ 122) || (65 ≤ c.toNat && c.toNat ≤ 90) ||
  (48 ≤ c.toNat && c.toNat ≤ 57) || c = '_'

/-- Upper case of an ASCII letter, every other character unchanged. -/
def asciiUpper (c : Char) : Char :=
  if 97 ≤ c.toNat ∧ c.toNat ≤ 122 then Char.ofNat (c.toNat - 32) else c

/-- Token written by a maximal run of word characters (keywords are
recognised without regard to case). -/
def wordToken (w : List Char) : Token :=
  match w with
  | [] => Token.illegal ""
  | c :: cs =>
    if c = ':' then
      (if cs.isEmpty || cs.any (fun x => !isIdChar x) then Token.illegal (String.mk w)
       else Token.param (String.mk cs))
    else if w.any (fun x => !isIdChar x) then Token.illegal (String.mk w)
    else if (digitValue c).isSome then
      (match readDigits w 0 with
       | some n => Token.number n
       | none => Token.illegal (String.mk w))
    else
      let u := String.mk (w.map asciiUpper)
      if u = "SELECT" then Token.kSELECT
      else if u = "FROM" then Token.kFROM
      else if u = "WHERE" then Token.kWHERE
      else if u = "ORDER" then Token.kORDER
      else if u = "BY" then Token.kBY
      else if u = "ASC" then Token.kASC
      else if u = "DESC" then Token.kDESC
      else if u = "LIMIT" then Token.kLIMIT
      else if u = "LIKE" then Token.kLIKE
      else if u = "OR" then Token.kOR
      else Token.ident (String.mk w)

/-- Tokens of the run collected so far (held in reverse). -/
def flushWord (run : List Char) : List Token :=
  match run with
  | [] => []
  | _ :: _ => [wordToken run.reverse]

/-- Lexer: blanks separate tokens, `,` and `=` are tokens of their own, any
other character outside words is illegal. -/
def lexFrom : List Char → List Char → List Token
  | [], run => flushWord run
  | c :: cs, run =>
    if isIdChar c || c = ':' then lexFrom cs (c :: run)
    else if isSpaceChar c then flushWord run ++ lexFrom cs []
    else if c = ',' then flushWord run ++ Token.comma :: lexFrom cs []
    else if c = '=' then flushWord run ++ Token.eq :: lexFrom cs []
    else flushWord run ++ Token.illegal (String.mk [c]) :: lexFrom cs []

/-- Tokens of a statement text. -/
def lex (text : String) : List Token := lexFrom text.data []

/-- Condition of a `WHERE` clause, columns still by name. -/
inductive Expr where
  | eq (col : String) (arg : String) : Expr
  | like (col : String) (arg : String) : Expr
  | or (a b : Expr) : Expr
deriving DecidableEq, Repr

/-- Parsed `SELECT`: result columns, table, condition, `ORDER BY` column with
its direction (`true` for `DESC`) and `LIMIT`. -/
structure SelectStmt where
  columns : List String
  table : String
  filter : Option Expr
  order : Option (String × Bool)
  limit : Option Nat
deriving DecidableEq, Repr

/-- The engine's complaint about the first token it cannot place. -/
def syntaxErrorAt : List Token → GoError
  | [] => ⟨"incomplete input"⟩
  | t :: _ => ⟨"near \"" ++ t.text ++ "\": syntax error"⟩

/-- Result columns: `name {, name}`. -/
def parseColumns : List Token → Option (List String × List Token)
  | Token.ident c :: rest =>
    (match rest with
     | Token.comma :: rest1 =>
       (match parseColumns rest1 with
        | some (cs, r) => some (c :: cs, r)
        | none => none)
     | _ => some ([c], rest))
  | _ => none

/-- Condition: `term {OR term}` with `term` one of `column = :variable` and
`column LIKE :variable`.  Nothing else may follow a term inside the
condition; in particular a term is not followed by `ASC`. -/
def parseExpr : List Token → Option (Expr × List Token)
  | Token.ident c :: op :: Token.param v :: rest =>
    let term : Option Expr :=
      match op with
      | Token.eq => some (Expr.eq c v)
      | Token.kLIKE => some (Expr.like c v)
      | _ => none
    (match term with
     | none => none
     | some t =>
       (match rest with
        | Token.kOR :: rest1 =>
          (match parseExpr rest1 with
           | some (e, r) => some (Expr.or t e, r)
           | none => none)
        | _ => some (t, rest)))
  | _ => none

/-- Optional `WHERE` clause. -/
def parseWhere : List Token → Except GoError (Option Expr × List Token)
  | Token.kWHERE :: ts =>
    (match parseExpr ts with
     | some (e, r) => Except.ok (some e, r)
     | none => Except.error (syntaxErrorAt ts))
  | ts => Except.ok (none, ts)

/-- Optional `ORDER BY column [ASC | DESC]` clause. -/
def parseOrder : List Token → Except GoError (Option (String × Bool) × List Token)
  | Token.kORDER :: Token.kBY :: Token.ident c :: Token.kASC :: r => Except.ok (some (c, false), r)
  | Token.kORDER :: Token.kBY :: Token.ident c :: Token.kDESC :: r => Except.ok (some (c, true), r)
  | Token.kORDER :: Token.kBY :: Token.ident c :: r => Except.ok (some (c, false), r)
  | Token.kORDER :: r => Except.error (syntaxErrorAt r)
  | ts => Except.ok (none, ts)

/-- Optional `LIMIT n` clause. -/
def parseLimit : List Token → Except GoError (Option Nat × List Token)
  | Token.kLIMIT :: Token.number n :: r => Except.ok (some n, r)
  | Token.kLIMIT :: r => Except.error (syntaxErrorAt r)
  | ts => Except.ok (none, ts)

/-- Parser for `SELECT columns FROM table [WHERE ...] [ORDER BY ...]
[LIMIT n]`: the clauses come in this order and nothing may be left over. -/
def parseSelect (ts : List Token) : Except GoError SelectStmt :=
  match ts with
  | Token.kSELECT :: ts1 =>
    (match parseColumns ts1 with
     | some (cols, Token.kFROM :: Token.ident tbl :: ts2) =>
       (match parseWhere ts2 with
        | Except.error e => Except.error e
        | Except.ok (filter, ts3) =>
          (match parseOrder ts3 with
           | Except.error e => Except.error e
           | Except.ok (order, ts4) =>
             (match parseLimit ts4 with
              | Except.error e => Except.error e
              | Except.ok (limit, []) => Except.ok ⟨cols, tbl, filter, order, limit⟩
              | Except.ok (_, t :: r) => Except.error (syntaxErrorAt (t :: r)))))
     | some (_, r) => Except.error (syntaxErrorAt r)
     | none => Except.error (syntaxErrorAt ts1))
  | _ => Except.error (syntaxErrorAt ts)

/-! ## Evaluation of a prepared `SELECT` -/

/-- Condition with its columns resolved against the schema. -/
inductive Cond where
  | eq (c : Column) (arg : String) : Cond
  | like (c : Column) (arg : String) : Cond
  | or (a b : Cond) : Cond
deriving DecidableEq, Repr

/-- Prepared `SELECT` over `scheduler`. -/
structure Plan where
  columns : List Column
  filter : Option Cond
  order : Option (Column × Bool)
  limit : Option Nat
deriving DecidableEq, Repr

/-- Column of the schema with this name, or the engine's error. -/
def resolveColumn (n : String) : Except GoError Column :=
  match Column.ofName n with
  | some c => Except.ok c
  | none => Except.error ⟨"no such column: " ++ n⟩

/-- All names of a list resolved, left to right. -/
def resolveColumns : List String → Except GoError (List Column)
  | [] => Except.ok []
  | n :: ns =>
    match resolveColumn n with
    | Except.error e => Except.error e
    | Except.ok c =>
      match resolveColumns ns with
      | Except.error e => Except.error e
      | Except.ok cs => Except.ok (c :: cs)

/-- Condition with its column names resolved. -/
def resolveExpr : Expr → Except GoError Cond
  | Expr.eq n v =>
    (match resolveColumn n with
     | Except.error e => Except.error e
     | Except.ok c => Except.ok (Cond.eq c v))
  | Expr.like n v =>
    (match resolveColumn n with
     | Except.error e => Except.error e
     | Except.ok c => Except.ok (Cond.like c v))
  | Expr.or a b =>
    (match resolveExpr a with
     | Except.error e => Except.error e
     | Except.ok x =>
       (match resolveExpr b with
        | Except.error e => Except.error e
        | Except.ok y => Except.ok (Cond.or x y)))

/-- Name resolution of a parsed `SELECT` against the one table of the
database. -/
def resolve (q : SelectStmt) : Except GoError Plan :=
  if q.table ≠ "scheduler" then Except.error ⟨"no such table: " ++ q.table⟩
  else
    match resolveColumns q.columns with
    | Except.error e => Except.error e
    | Except.ok cols =>
      match (match q.filter with
             | none => Except.ok none
             | some e =>
               (match resolveExpr e with
                | Except.error err => Except.error err
                | Except.ok c => Except.ok (some c)) : Except GoError (Option Cond)) with
      | Except.error e => Except.error e
      | Except.ok filter =>
        match q.order with
        | none => Except.ok ⟨cols, filter, none, q.limit⟩
        | some (n, desc) =>
          match resolveColumn n with
          | Except.error e => Except.error e
          | Except.ok c => Except.ok ⟨cols, filter, some (c, desc), q.limit⟩

/-- Preparation of a `SELECT` text: lexing, parsing, name resolution. -/
def prepare (text : String) : Except GoError Plan :=
  match parseSelect (lex text) with
  | Except.error e => Except.error e
  | Except.ok q => resolve q

/-- Value bound to a named argument; an unbound one reads as NULL. -/
def lookupArg : List (String × Value) → String → Value
  | [], _ => Value.null
  | (n, v) :: rest, name => if n = name then v else lookupArg rest name

/-- Text of a value, as the engine renders it where text is wanted. -/
def Value.asText : Value → Option String
  | Value.null => none
  | Value.integer i => some (decimalText i)
  | Value.text s => some s

/-- Engine `cell = arg`.  An integer cell (column `id`, INTEGER affinity)
against a text is compared after the text is read as a number; a text cell
against an integer is compared with the integer's text; NULL equals
nothing. -/
def valueEq (E : Engine) : Value → Value → Bool
  | Value.integer i, Value.integer j => decide (i = j)
  | Value.integer i, Value.text s => decide (E.rowidOfText s = some i)
  | Value.text a, Value.text b => decide (a = b)
  | Value.text a, Value.integer j => decide (a = decimalText j)
  | _, _ => false

/-- Engine `cell LIKE pattern`, when the pattern is within the limit. -/
def valueLike (cell pattern : Value) : Bool :=
  match pattern.asText, cell.asText with
  | some p, some s => likeMatch p.data s.data
  | _, _ => false

/-- Error `LIKE` raises for a pattern, whatever the cell: the pattern has
more bytes than `SQLITE_MAX_LIKE_PATTERN_LENGTH`. -/
def likeError (pattern : Value) : Option GoError :=
  match pattern.asText with
  | some p =>
    if SQLITE_MAX_LIKE_PATTERN_LENGTH < utf8Length p.data then some errLikeTooComplex else none
  | none => none

/-- Truth of a condition on a row, when its evaluation raises no error. -/
def evalCond (E : Engine) (args : List (String × Value)) (t : Task) : Cond → Bool
  | Cond.eq c v => valueEq E (t.cell c) (lookupArg args v)
  | Cond.like c v => valueLike (t.cell c) (lookupArg args v)
  | Cond.or a b => evalCond E args t a || evalCond E args t b

/-- Error the evaluation of a condition on a row raises, if any.  `OR`
evaluates its right side only when the left side is not true. -/
def condError (E : Engine) (args : List (String × Value)) (t : Task) : Cond → Option GoError
  | Cond.eq _ _ => none
  | Cond.like _ v => likeError (lookupArg args v)
  | Cond.or a b =>
    match condError E args t a with
    | some e => some e
    | none => if evalCond E args t a then none else condError E args t b

/-- Engine order of values under `ORDER BY ... ASC`: NULL first, then
integers by value, then text in BINARY order. -/
def valueLE : Value → Value → Bool
  | Value.null, _ => true
  | Value.integer _, Value.null => false
  | Value.integer i, Value.integer j => decide (i ≤ j)
  | Value.integer _, Value.text _ => true
  | Value.text _, Value.null => false
  | Value.text _, Value.integer _ => false
  | Value.text a, Value.text b => textLE a.data b.data

/-- Order of two rows under `ORDER BY c` (`desc` for `DESC`). -/
def orderLE (c : Column) (desc : Bool) (a b : Task) : Bool :=
  if desc then valueLE (b.cell c) (a.cell c) else valueLE (a.cell c) (b.cell c)

/-- Insertion of `x` before the first element it does not exceed. -/
def insertSorted {α : Type} (le : α → α → Bool) (x : α) : List α → List α
  | [] => [x]
  | y :: ys => if le x y then x :: y :: ys else y :: insertSorted le x ys

/-- Stable sort: rows with equal keys keep their table order. -/
def sortBy {α : Type} (le : α → α → Bool) : List α → List α
  | [] => []
  | x :: xs => insertSorted le x (sortBy le xs)

/-- Name of a column, as the result set reports it. -/
def Column.name : Column → String
  | Column.cId => "id"
  | Column.cDate => "date"
  | Column.cTitle => "title"
  | Column.cComment => "comment"
  | Column.cRepeat => "repeat"

/-- What Go sees of an executed `SELECT`: the names of the result columns,
the rows `rows.Next()` delivers, in order, and the error `rows.Err()`
reports once `rows.Next()` has returned false. -/
structure RowStream where
  columns : List String
  rows : List (List Value)
  err : Option GoError
deriving DecidableEq, Repr

/-- The table scan under a `WHERE`: the rows kept, in table order, up to the
first row on which the condition raises an error, and that error. -/
def filterRows (E : Engine) (args : List (String × Value)) (c : Cond) :
    List Task → List Task × Option GoError
  | [] => ([], none)
  | t :: ts =>
    match condError E args t c with
    | some e => ([], some e)
    | none =>
      if evalCond E args t c then (t :: (filterRows E args c ts).1, (filterRows E args c ts).2)
      else filterRows E args c ts

/-- Execution of a prepared `SELECT`: filter, order, limit, project.
`LIMIT 0` reads no row.  Under `ORDER BY` the whole table is scanned before
the first row is delivered, so an error of the scan leaves no row; without
it the rows before the error are delivered, and the error is not reached
when `LIMIT` is filled before it. -/
def runPlan (E : Engine) (args : List (String × Value)) (rows : List Task) (p : Plan) :
    RowStream :=
  if p.limit = some 0 then ⟨p.columns.map Column.name, [], none⟩
  else
    let matched : List Task × Option GoError :=
      match p.filter with
      | none => (rows, none)
      | some c => filterRows E args c rows
    let ordered : List Task × Option GoError :=
      match p.order with
      | none => matched
      | some (c, desc) =>
        (match matched.2 with
         | some e => ([], some e)
         | none => (sortBy (orderLE c desc) matched.1, none))
    let limited : List Task × Option GoError :=
      match p.limit with
      | none => ordered
      | some n => if n ≤ ordered.1.length then (ordered.1.take n, none) else ordered
    ⟨p.columns.map Column.name, limited.1.map (fun t => p.columns.map t.cell), limited.2⟩

/-- Go `db.Query(text, args...)`: the error of preparing the statement, or
the stream of its rows (the driver runs the statement only as the rows are
asked for). -/
def dbQuery (E : Engine) (s : Store) (text : String) (args : List (String × Value)) :
    Except GoError RowStream :=
  match prepare text with
  | Except.error e => Except.error e
  | Except.ok p => Except.ok (runPlan E args s.rows p)

/-! ## The driver: binding and scanning -/

/-- Binding of a Go `string` argument: TEXT, also when the string is empty
(the driver binds a zero-length text, never NULL). -/
def bindString (s : String) : Value := Value.text s

/-- Binding of a Go `int` argument. -/
def bindInt (i : Int) : Value := Value.integer i

/-- Go `%q` of a text whose characters, apart from the double quote and the
backslash, are written as they are. -/
def goQuote (s : String) : String :=
  let quote := Char.ofNat 34
  let backslash := Char.ofNat 92
  String.mk (quote :: (s.data.flatMap (fun c =>
    if c = quote then [backslash, quote]
    else if c = backslash then [backslash, backslash]
    else [c])) ++ [quote])

/-- Error of `Scan` at the column with this index and name. -/
def scanError (index : Nat) (name : String) (cause : String) : GoError :=
  ⟨"sql: Scan error on column index " ++ decimalText (Int.ofNat index) ++ ", name " ++
    goQuote name ++ ": " ++ cause⟩

/-- Go `Scan` into an `int` destination. -/
def scanInt (index : Nat) (name : String) : Value → Except GoError Int
  | Value.integer i => Except.ok i
  | Value.text s =>
    (match readSigned s.data with
     | some i => Except.ok i
     | none => Except.error (scanError index name
         ("converting driver.Value type string (" ++ goQuote s ++ ") to a int: invalid syntax")))
  | Value.null => Except.error (scanError index name "converting NULL to int is unsupported")

/-- Go `Scan` into a `string` destination. -/
def scanString (index : Nat) (name : String) : Value → Except GoError String
  | Value.text s => Except.ok s
  | Value.integer i => Except.ok (decimalText i)
  | Value.null => Except.error (scanError index name "converting NULL to string is unsupported")

/-- Go `rows.Scan(&task.Id, &task.Date, &task.Title, &task.Comment,
&task.Repeat)` on one result row with the given column names: the first
destination that cannot be filled gives the error. -/
def scanTask (names : List String) : List Value → Except GoError Task
  | [a, b, c, d, e] =>
    (match scanInt 0 (names.getD 0 "") a, scanString 1 (names.getD 1 "") b,
        scanString 2 (names.getD 2 "") c, scanString 3 (names.getD 3 "") d,
        scanString 4 (names.getD 4 "") e with
     | Except.ok i, Except.ok dt, Except.ok ti, Except.ok co, Except.ok re =>
       Except.ok ⟨i, dt, ti, co, re⟩
     | Except.error err, _, _, _, _ => Except.error err
     | _, Except.error err, _, _, _ => Except.error err
     | _, _, Except.error err, _, _ => Except.error err
     | _, _, _, Except.error err, _ => Except.error err
     | _, _, _, _, Except.error err => Except.error err)
  | vals => Except.error ⟨"sql: expected " ++ decimalText (Int.ofNat vals.length) ++
      " destination arguments in Scan, not 5"⟩

/-- The loop over `rows.Next()` with its `Scan` and `append`, started with
the slice collected so far; a failing `Scan` ends it. -/
def scanRows (names : List String) : List (List Value) → Slice Task → Except GoError (Slice Task)
  | [], tasks => Except.ok tasks
  | r :: rs, tasks =>
    match scanTask names r with
    | Except.error e => Except.error e
    | Except.ok t => scanRows names rs (tasks.append t)

/-! ## Writing statements -/

/-- Largest rowid the engine can hand out. -/
def MAX_ROWID : Int := 9223372036854775807

/-- Largest rowid present in the table, if it has a row. -/
def maxRowid : List Task → Option Int
  | [] => none
  | t :: ts =>
    match maxRowid ts with
    | none => some t.Id
    | some m => some (max t.Id m)

/-- Rowid for a new row of an AUTOINCREMENT table: one more than the largest
rowid present (1 for an empty table), raised to one more than the largest
rowid ever handed out; none is left once either has reached `MAX_ROWID`. -/
def newRowid (s : Store) : Option Int :=
  match maxRowid s.rows with
  | none => if s.seq = MAX_ROWID then none else some (max 1 (s.seq + 1))
  | some m =>
    if m ≥ MAX_ROWID ∨ s.seq = MAX_ROWID then none else some (max (m + 1) (s.seq + 1))

/-- The column constraint `NOT NULL`: it refuses NULL and nothing else. -/
def notNull : Value → Bool
  | Value.null => false
  | _ => true

/-- Error of a refused `title`. -/
def errTitleNull : GoError := ⟨"NOT NULL constraint failed: scheduler.title"⟩

/-- Error of an exhausted rowid space. -/
def errFull : GoError := ⟨"database or disk is full"⟩

/-- Go `InsertTask`: `INSERT INTO scheduler (date, title, comment, repeat)
VALUES (:date, :title, :comment, :repeat)` with the four strings of the task
bound, then `LastInsertId`.  Returns the id, the error and the store
afterwards; a refused statement leaves the store as it was. -/
def InsertTask (s : Store) (task : Task) : Int × Option GoError × Store :=
  let args : List (String × Value) :=
    [("date", bindString task.Date), ("title", bindString task.Title),
     ("comment", bindString task.Comment), ("repeat", bindString task.Repeat)]
  match newRowid s with
  | none => (0, some errFull, s)
  | some v =>
    if notNull (lookupArg args "title") = false then (0, some errTitleNull, s)
    else (v, none, ⟨s.rows ++ [⟨v, task.Date, task.Title, task.Comment, task.Repeat⟩], v⟩)

/-- Go `UpdateTask`: `UPDATE scheduler SET date = :date, title = :title,
comment = :comment, repeat = :repeat WHERE id = :id` with the fields of the
task bound, then `RowsAffected` (the number of rows the `WHERE` selects). -/
def UpdateTask (E : Engine) (s : Store) (task : Task) : Task × Option GoError × Store :=
  let args : List (String × Value) :=
    [("date", bindString task.Date), ("title", bindString task.Title),
     ("comment", bindString task.Comment), ("repeat", bindString task.Repeat),
     ("id", bindInt task.Id)]
  let hit : Task → Bool := fun t => evalCond E args t (Cond.eq Column.cId "id")
  let rowsAffected := (s.rows.filter hit).length
  if rowsAffected ≠ 0 ∧ notNull (lookupArg args "title") = false then
    (Task.zero, some errTitleNull, s)
  else
    let s1 : Store :=
      ⟨s.rows.map (fun t =>
        if hit t then ⟨t.Id, task.Date, task.Title, task.Comment, task.Repeat⟩ else t), s.seq⟩
    if rowsAffected = 0 then (Task.zero, some ⟨"failed to update"⟩, s1)
    else (task, none, s1)

/-- Go `DeleteTaskDb`: `DELETE FROM scheduler WHERE id = :id` with the
string bound, then `RowsAffected`; the final `return err` returns the `nil`
error of `RowsAffected`. -/
def DeleteTaskDb (E : Engine) (s : Store) (id : String) : Option GoError × Store :=
  let args : List (String × Value) := [("id", bindString id)]
  let hit : Task → Bool := fun t => evalCond E args t (Cond.eq Column.cId "id")
  let rowsAffected := (s.rows.filter hit).length
  let s1 : Store := ⟨s.rows.filter (fun t => !hit t), s.seq⟩
  if rowsAffected = 0 then (some ⟨"failed to delete"⟩, s1) else (none, s1)

/-! ## Reading functions -/

/-- Go `GetTasks`; after the loop a non-nil `rows.Err()` is returned with
the `nil` slice. -/
def GetTasks (E : Engine) (s : Store) : Slice Task × Option GoError :=
  match dbQuery E s
      "SELECT id, date, title, comment, repeat FROM scheduler ORDER BY date ASC LIMIT 20" [] with
  | Except.error e => (Slice.empty, some e)
  | Except.ok rows =>
    match scanRows rows.columns rows.rows Slice.nil with
    | Except.error e => (Slice.empty, some e)
    | Except.ok tasks =>
      match rows.err with
      | some e => (Slice.nil, some e)
      | none => (if tasks.isNil then Slice.empty else tasks, none)

/-- Go `SearchTasks`: the pattern is `fmt.Sprintf("%%%s%%", search)`, the
text between two `%`; after the loop a non-nil `rows.Err()` is returned with
the empty slice; on `tasks == nil` the source assigns `nil`. -/
def SearchTasks (E : Engine) (s : Store) (search : String) : Slice Task × Option GoError :=
  let search1 := "%" ++ search ++ "%"
  match dbQuery E s
      "SELECT id, date, title, comment, repeat  FROM scheduler WHERE title LIKE :search OR comment LIKE :search ORDER BY date ASC LIMIT 20"
      [("search", bindString search1)] with
  | Except.error e => (Slice.empty, some e)
  | Except.ok rows =>
    match scanRows rows.columns rows.rows Slice.nil with
    | Except.error e => (Slice.empty, some e)
    | Except.ok tasks =>
      match rows.err with
      | some e => (Slice.empty, some e)
      | none => (if tasks.isNil then Slice.nil else tasks, none)

/-- Go `SearchTasksByDate`. -/
def SearchTasksByDate (E : Engine) (s : Store) (date : String) : Slice Task × Option GoError :=
  match dbQuery E s
      "SELECT id, date, title, comment, repeat FROM scheduler WHERE date = :date ASC LIMIT 20"
      [("date", bindString date)] with
  | Except.error e => (Slice.empty, some e)
  | Except.ok rows =>
    match scanRows rows.columns rows.rows Slice.nil with
    | Except.error e => (Slice.empty, some e)
    | Except.ok tasks =>
      match rows.err with
      | some e => (Slice.empty, some e)
      | none => (if tasks.isNil then Slice.empty else tasks, none)

/-- Go `ReadTask`: `QueryRow` and `Scan` of the first result row; when
there is none, the error of the rows if there is one, else `sql.ErrNoRows`. -/
def ReadTask (E : Engine) (s : Store) (id : String) : Task × Option GoError :=
  match dbQuery E s
      "SELECT id, date, title, comment, repeat  FROM scheduler WHERE id = :id"
      [("id", bindString id)] with
  | Except.error e => (Task.zero, some e)
  | Except.ok rows =>
    match rows.rows with
    | [] =>
      (match rows.err with
       | some e => (Task.zero, some e)
       | none => (Task.zero, some ⟨"sql: no rows in result set"⟩))
    | r :: _ =>
      match scanTask rows.columns r with
      | Except.error e => (Task.zero, some e)
      | Except.ok t => (t, none)

/-! ## Histories of calls -/

/-- One call of a writing function. -/
inductive Call where
  | insert (t : Task) : Call
  | update (t : Task) : Call
  | delete (id : String) : Call

/-- Store after a history of calls, and the ids its successful `InsertTask`
calls returned, oldest first. -/
def run (E : Engine) : Store → List Call → Store × List Int
  | s, [] => (s, [])
  | s, Call.insert t :: cs =>
    (match InsertTask s t with
     | (i, none, s1) => ((run E s1 cs).1, i :: (run E s1 cs).2)
     | (_, some _, s1) => run E s1 cs)
  | s, Call.update t :: cs => run E (UpdateTask E s t).2.2 cs
  | s, Call.delete id :: cs => run E (DeleteTaskDb E s id).2 cs

/-! ## Names used in the statements -/

/-- Order of two rows by `Date`, the key of `ORDER BY date ASC`. -/
def dateLE (a b : Task) : Bool := textLE a.Date.data b.Date.data

/-- The five result columns every `SELECT` of the module names. -/
def allColumns : List Column :=
  [Column.cId, Column.cDate, Column.cTitle, Column.cComment, Column.cRepeat]

/-- Rows the `WHERE` of `SearchTasks` keeps for the pattern `p`. -/
def searchHit (p : String) (t : Task) : Bool :=
  likeMatch p.data t.Title.data || likeMatch p.data t.Comment.data

/-! ## Properties of the engine model -/

lemma textLE_total (a b : List Char) : textLE a b = true ∨ textLE b a = true := by
  induction a generalizing b with
  | nil => left; simp [textLE]
  | cons x xs ih =>
    cases b with
    | nil => right; simp [textLE]
    | cons y ys =>
      simp only [textLE]
      by_cases h1 : x.toNat < y.toNat
      · left; simp [h1]
      · by_cases h2 : y.toNat < x.toNat
        · right; simp [h2]
        · simp only [h1, h2, if_false]
          exact ih ys

lemma textLE_trans (a b c : List Char) (hab : textLE a b = true) (hbc : textLE b c = true) :
    textLE a c = true := by
  induction a generalizing b c with
  | nil => simp [textLE]
  | cons x xs ih =>
    cases b with
    | nil => simp [textLE] at hab
    | cons y ys =>
      cases c with
      | nil => simp [textLE] at hbc
      | cons z zs =>
        simp only [textLE] at hab hbc ⊢
        by_cases h1 : x.toNat < y.toNat
        · by_cases h3 : y.toNat < z.toNat
          · have : x.toNat < z.toNat := by omega
            simp [this]
          · by_cases h4 : z.toNat < y.toNat
            · simp [h3, h4] at hbc
            · have : x.toNat < z.toNat := by omega
              simp [this]
        · by_cases h2 : y.toNat < x.toNat
          · simp [h1, h2] at hab
          · simp only [h1, h2, if_false] at hab
            by_cases h3 : y.toNat < z.toNat
            · have : x.toNat < z.toNat := by omega
              simp [this]
            · by_cases h4 : z.toNat < y.toNat
              · simp [h3, h4] at hbc
              · simp only [h3, h4, if_false] at hbc
                have e1 : ¬ x.toNat < z.toNat := by omega
                have e2 : ¬ z.toNat < x.toNat := by omega
                simp only [e1, e2, if_false]
                exact ih ys zs hab hbc

lemma textLE_nil_right (a : List Char) (h : textLE a [] = true) : a = [] := by
  cases a with
  | nil => rfl
  | cons x xs => simp [textLE] at h

lemma insertSorted_perm {α : Type} (le : α → α → Bool) (x : α) (l : List α) :
    (insertSorted le x l).Perm (x :: l) := by
  induction l with
  | nil => simp [insertSorted]
  | cons y ys ih =>
    simp only [insertSorted]
    split
    · exact List.Perm.refl _
    · exact (List.Perm.cons y ih).trans (List.Perm.swap x y ys)

lemma sortBy_perm {α : Type} (le : α → α → Bool) (l : List α) : (sortBy le l).Perm l := by
  induction l with
  | nil => simp [sortBy]
  | cons x xs ih =>
    simp only [sortBy]
    exact (insertSorted_perm le x _).trans (List.Perm.cons x ih)

lemma insertSorted_pairwise {α : Type} (le : α → α → Bool)
    (total : ∀ a b, le a b = true ∨ le b a = true)
    (trans : ∀ a b c, le a b = true → le b c = true → le a c = true)
    (x : α) (l : List α) (h : l.Pairwise (fun a b => le a b = true)) :
    (insertSorted le x l).Pairwise (fun a b => le a b = true) := by
  induction l with
  | nil => simp [insertSorted]
  | cons y ys ih =>
    simp only [insertSorted]
    rw [List.pairwise_cons] at h
    split
    · rename_i hxy
      rw [List.pairwise_cons]
      refine ⟨?_, List.pairwise_cons.mpr h⟩
      intro z hz
      rcases List.mem_cons.mp hz with rfl | hz
      · exact hxy
      · exact trans _ _ _ hxy (h.1 z hz)
    · rename_i hxy
      have hyx : le y x = true := by
        rcases total x y with h1 | h1
        · exact absurd h1 hxy
        · exact h1
      rw [List.pairwise_cons]
      refine ⟨?_, ih h.2⟩
      intro z hz
      have hz1 : z ∈ x :: ys := (insertSorted_perm le x ys).mem_iff.mp hz
      rcases List.mem_cons.mp hz1 with rfl | hz2
      · exact hyx
      · exact h.1 z hz2

lemma sortBy_pairwise {α : Type} (le : α → α → Bool)
    (total : ∀ a b, le a b = true ∨ le b a = true)
    (trans : ∀ a b c, le a b = true → le b c = true → le a c = true)
    (l : List α) : (sortBy le l).Pairwise (fun a b => le a b = true) := by
  induction l with
  | nil => simp [sortBy]
  | cons x xs ih =>
    simp only [sortBy]
    exact insertSorted_pairwise le total trans x _ ih

lemma dateLE_total (a b : Task) : dateLE a b = true ∨ dateLE b a = true :=
  textLE_total _ _

lemma dateLE_trans (a b c : Task) (h1 : dateLE a b = true) (h2 : dateLE b c = true) :
    dateLE a c = true :=
  textLE_trans _ _ _ h1 h2

lemma orderLE_date : orderLE Column.cDate false = dateLE := by
  funext a b
  simp [orderLE, dateLE, Task.cell, valueLE]

lemma prepare_getTasks :
    prepare "SELECT id, date, title, comment, repeat FROM scheduler ORDER BY date ASC LIMIT 20"
      = Except.ok ⟨allColumns, none, some (Column.cDate, false), some 20⟩ := by
  rfl

lemma prepare_searchTasks :
    prepare "SELECT id, date, title, comment, repeat  FROM scheduler WHERE title LIKE :search OR comment LIKE :search ORDER BY date ASC LIMIT 20"
      = Except.ok ⟨allColumns,
          some (Cond.or (Cond.like Column.cTitle "search") (Cond.like Column.cComment "search")),
          some (Column.cDate, false), some 20⟩ := by
  rfl

lemma prepare_searchTasksByDate :
    prepare "SELECT id, date, title, comment, repeat FROM scheduler WHERE date = :date ASC LIMIT 20"
      = Except.error ⟨"near \"ASC\": syntax error"⟩ := by
  rfl

lemma prepare_readTask :
    prepare "SELECT id, date, title, comment, repeat  FROM scheduler WHERE id = :id"
      = Except.ok ⟨allColumns, some (Cond.eq Column.cId "id"), none, none⟩ := by
  rfl

lemma scanTask_cells (names : List String) (t : Task) :
    scanTask names (allColumns.map t.cell) = Except.ok t := by
  cases t
  rfl

lemma scanRows_cells (names : List String) (l : List Task) (acc : Slice Task) :
    scanRows names (l.map (fun t => allColumns.map t.cell)) acc
      = Except.ok (l.foldl Slice.append acc) := by
  induction l generalizing acc with
  | nil => rfl
  | cons t ts ih =>
    simp only [List.map_cons, scanRows, scanTask_cells, List.foldl_cons]
    exact ih _

/-- A scan on which the condition raises no error keeps the rows the
condition holds of. -/
lemma filterRows_of_no_error (E : Engine) (args : List (String × Value)) (c : Cond)
    (rows : List Task) (h : ∀ t ∈ rows, condError E args t c = none) :
    filterRows E args c rows = (rows.filter (fun t => evalCond E args t c), none) := by
  induction rows with
  | nil => rfl
  | cons t ts ih =>
    have ht := h t (List.mem_cons_self _ _)
    have ih1 := ih (fun r hr => h r (List.mem_cons_of_mem _ hr))
    simp only [filterRows, ht, ih1, List.filter]
    cases evalCond E args t c <;> rfl

/-- A cut at or beyond the length changes nothing. -/
lemma limit_take (n : Nat) (l : List Task) :
    (if n ≤ l.length then (l.take n, (none : Option GoError)) else (l, none)) = (l.take n, none) := by
  split
  · rfl
  · rw [List.take_of_length_le (by omega)]

lemma foldl_append_mk (l : List Task) (xs : List Task) :
    l.foldl Slice.append (Slice.mk xs) = Slice.mk (xs ++ l) := by
  induction l generalizing xs with
  | nil => simp
  | cons t ts ih => simp [Slice.append, ih]

lemma foldl_append_nil (l : List Task) :
    l.foldl Slice.append Slice.nil = (match l with | [] => Slice.nil | _ :: _ => Slice.mk l) := by
  cases l with
  | nil => rfl
  | cons t ts => simp [Slice.append, foldl_append_mk]

/-- What `GetTasks` computes: the rows in stable `Date` order, cut at 20. -/
lemma GetTasks_eq (E : Engine) (s : Store) :
    GetTasks E s = (Slice.mk ((sortBy dateLE s.rows).take 20), none) := by
  have hrun : runPlan E [] s.rows ⟨allColumns, none, some (Column.cDate, false), some 20⟩
      = ⟨allColumns.map Column.name,
          ((sortBy dateLE s.rows).take 20).map (fun t => allColumns.map t.cell), none⟩ := by
    simp [runPlan, orderLE_date, limit_take]
  simp only [GetTasks, dbQuery, prepare_getTasks, hrun, scanRows_cells, foldl_append_nil]
  cases h : List.take 20 (sortBy dateLE s.rows) with
  | nil => simp [Slice.isNil, Slice.empty]
  | cons t ts => simp [Slice.isNil]

/-- The condition of `SearchTasks`, as prepared. -/
lemma searchCond_eval (E : Engine) (p : String) :
    (fun t => evalCond E [("search", bindString p)] t
      (Cond.or (Cond.like Column.cTitle "search") (Cond.like Column.cComment "search")))
      = searchHit p := by
  funext t
  simp [evalCond, valueLike, lookupArg, bindString, Task.cell, Value.asText, searchHit]

/-- The condition of `SearchTasks` raises the error of its pattern, on every
row alike. -/
lemma searchCond_error (E : Engine) (p : String) (t : Task) :
    condError E [("search", bindString p)] t
      (Cond.or (Cond.like Column.cTitle "search") (Cond.like Column.cComment "search"))
      = (if SQLITE_MAX_LIKE_PATTERN_LENGTH < utf8Length p.data then some errLikeTooComplex
         else none) := by
  by_cases hl : SQLITE_MAX_LIKE_PATTERN_LENGTH < utf8Length p.data
  · simp [condError, likeError, lookupArg, bindString, Value.asText, hl]
  · simp [condError, likeError, lookupArg, bindString, Value.asText, hl]

/-- What `SearchTasks` computes within the pattern limit, and on an empty
table: the matching rows in stable `Date` order, cut at 20, as a slice that
stays `nil` when the list is empty. -/
lemma SearchTasks_eq (E : Engine) (s : Store) (search : String)
    (h : utf8Length ("%" ++ search ++ "%").data ≤ SQLITE_MAX_LIKE_PATTERN_LENGTH ∨ s.rows = []) :
    SearchTasks E s search =
      ((match (sortBy dateLE (s.rows.filter (searchHit ("%" ++ search ++ "%")))).take 20 with
        | [] => Slice.nil
        | t :: ts => Slice.mk (t :: ts)), none) := by
  have hno : ∀ t ∈ s.rows, condError E [("search", bindString ("%" ++ search ++ "%"))] t
      (Cond.or (Cond.like Column.cTitle "search") (Cond.like Column.cComment "search"))
      = none := by
    intro t ht
    rcases h with h | h
    · rw [searchCond_error, if_neg (by omega)]
    · rw [h] at ht
      simp at ht
  have hrun : runPlan E [("search", bindString ("%" ++ search ++ "%"))] s.rows
      ⟨allColumns, some (Cond.or (Cond.like Column.cTitle "search")
        (Cond.like Column.cComment "search")), some (Column.cDate, false), some 20⟩
      = ⟨allColumns.map Column.name,
          ((sortBy dateLE (s.rows.filter (searchHit ("%" ++ search ++ "%")))).take 20).map
            (fun t => allColumns.map t.cell), none⟩ := by
    simp [runPlan, filterRows_of_no_error _ _ _ _ hno, searchCond_eval, orderLE_date, limit_take]
  simp only [SearchTasks, dbQuery, prepare_searchTasks, hrun, scanRows_cells, foldl_append_nil]
  cases h : List.take 20 (sortBy dateLE (List.filter (searchHit ("%" ++ search ++ "%")) s.rows)) with
  | nil => simp [Slice.isNil]
  | cons t ts => simp [Slice.isNil]

/-- What `SearchTasks` computes above the pattern limit on a table with a
row: the scan fails on its first row, `rows.Err()` reports it after a loop
that ran no round, and the empty slice is returned with the error. -/
lemma SearchTasks_too_complex (E : Engine) (s : Store) (search : String)
    (h : SQLITE_MAX_LIKE_PATTERN_LENGTH < utf8Length ("%" ++ search ++ "%").data)
    (hrows : s.rows ≠ []) :
    SearchTasks E s search = (Slice.empty, some errLikeTooComplex) := by
  cases hr : s.rows with
  | nil => exact absurd hr hrows
  | cons t ts =>
    have hrun : runPlan E [("search", bindString ("%" ++ search ++ "%"))] (t :: ts)
        ⟨allColumns, some (Cond.or (Cond.like Column.cTitle "search")
          (Cond.like Column.cComment "search")), some (Column.cDate, false), some 20⟩
        = ⟨allColumns.map Column.name, [], some errLikeTooComplex⟩ := by
      have hf : filterRows E [("search", bindString ("%" ++ search ++ "%"))]
          (Cond.or (Cond.like Column.cTitle "search") (Cond.like Column.cComment "search"))
          (t :: ts) = ([], some errLikeTooComplex) := by
        simp only [filterRows, searchCond_error, if_pos h]
      simp [runPlan, hf]
    simp only [SearchTasks, dbQuery, prepare_searchTasks, hr, hrun, scanRows]

/-- Rows the `WHERE id = :id` of `ReadTask` and `DeleteTaskDb` selects. -/
lemma evalCond_id_text (E : Engine) (id : String) (t : Task) :
    evalCond E [("id", bindString id)] t (Cond.eq Column.cId "id")
      = decide (E.rowidOfText id = some t.Id) := by
  simp [evalCond, valueEq, lookupArg, bindString, Task.cell]

/-- What `ReadTask` computes: the first row whose rowid the text denotes. -/
lemma ReadTask_eq (E : Engine) (s : Store) (id : String) :
    ReadTask E s id =
      (match s.rows.filter (fun t => decide (E.rowidOfText id = some t.Id)) with
       | [] => (Task.zero, some ⟨"sql: no rows in result set"⟩)
       | t :: _ => (t, none)) := by
  have hf : (fun t => evalCond E [("id", bindString id)] t (Cond.eq Column.cId "id"))
      = (fun t => decide (E.rowidOfText id = some t.Id)) := by
    funext t
    exact evalCond_id_text E id t
  have hrun : runPlan E [("id", bindString id)] s.rows
      ⟨allColumns, some (Cond.eq Column.cId "id"), none, none⟩
      = ⟨allColumns.map Column.name,
          (s.rows.filter (fun t => decide (E.rowidOfText id = some t.Id))).map
            (fun t => allColumns.map t.cell), none⟩ := by
    have hno : ∀ t ∈ s.rows,
        condError E [("id", bindString id)] t (Cond.eq Column.cId "id") = none :=
      fun _ _ => rfl
    simp [runPlan, filterRows_of_no_error _ _ _ _ hno, hf]
  simp only [ReadTask, dbQuery, prepare_readTask, hrun]
  cases h : List.filter (fun t => decide (E.rowidOfText id = some t.Id)) s.rows with
  | nil => simp
  | cons t ts => simp [scanTask_cells]

/-! ### Decimal text is read back -/

lemma digitChar_toNat (d : Nat) (h : d < 10) : (digitChar d).toNat = 48 + d := by
  interval_cases d <;> rfl

lemma digitValue_digitChar (d : Nat) (h : d < 10) : digitValue (digitChar d) = some d := by
  interval_cases d <;> rfl

lemma readDigits_append (a b : List Char) (acc : Nat) :
    readDigits (a ++ b) acc =
      (match readDigits a acc with
       | none => none
       | some x => readDigits b x) := by
  induction a generalizing acc with
  | nil => simp [readDigits]
  | cons c cs ih =>
    simp only [List.cons_append, readDigits]
    cases digitValue c with
    | none => rfl
    | some d => exact ih _

lemma readDigits_natDigits (fuel n : Nat) (h : n < fuel) :
    readDigits (natDigits fuel n) 0 = some n := by
  induction fuel generalizing n with
  | zero => omega
  | succ k ih =>
    simp only [natDigits]
    split
    · rename_i h10
      simp [readDigits, digitValue_digitChar n h10]
    · rename_i h10
      have hk : n / 10 < k := by omega
      have hm : n % 10 < 10 := Nat.mod_lt _ (by decide)
      rw [readDigits_append, ih _ hk]
      simp only [readDigits, digitValue_digitChar _ hm]
      congr 1
      omega

lemma natDigits_digit (fuel n : Nat) (c : Char) (hc : c ∈ natDigits fuel n) :
    48 ≤ c.toNat ∧ c.toNat ≤ 57 := by
  induction fuel generalizing n with
  | zero => simp [natDigits] at hc
  | succ k ih =>
    simp only [natDigits] at hc
    split at hc
    · rename_i h10
      rw [List.mem_singleton] at hc
      subst hc
      rw [digitChar_toNat n h10]
      omega
    · rcases List.mem_append.mp hc with h1 | h1
      · exact ih _ h1
      · rw [List.mem_singleton] at h1
        subst h1
        have hm : n % 10 < 10 := Nat.mod_lt _ (by decide)
        rw [digitChar_toNat _ hm]
        omega

lemma natDigits_ne_nil (k n : Nat) : natDigits (k + 1) n ≠ [] := by
  simp only [natDigits]
  split <;> simp

lemma isSpaceChar_of_ge (c : Char) (h : 45 ≤ c.toNat) : isSpaceChar c = false := by
  have h1 : c ≠ ' ' := by rintro rfl; revert h; decide
  have h2 : c ≠ '\t' := by rintro rfl; revert h; decide
  have h3 : c ≠ '\n' := by rintro rfl; revert h; decide
  have h4 : c ≠ '\r' := by rintro rfl; revert h; decide
  have h5 : c.toNat ≠ 11 := by omega
  have h6 : c.toNat ≠ 12 := by omega
  simp [isSpaceChar, h1, h2, h3, h4, h5, h6]

lemma dropWhile_none {α : Type} (p : α → Bool) (l : List α) (h : ∀ c ∈ l, p c = false) :
    l.dropWhile p = l := by
  cases l with
  | nil => rfl
  | cons x xs => simp [List.dropWhile, h x (List.mem_cons_self _ _)]

lemma trim_none (l : List Char) (h : ∀ c ∈ l, isSpaceChar c = false) :
    ((l.dropWhile isSpaceChar).reverse.dropWhile isSpaceChar).reverse = l := by
  rw [dropWhile_none _ l h, dropWhile_none _ l.reverse (fun c hc => h c (List.mem_reverse.mp hc)),
    List.reverse_reverse]

/-- The engine reads the decimal text of an integer as that integer. -/
lemma sqliteRowidOfText_decimalText (i : Int) : sqliteRowidOfText (decimalText i) = some i := by
  cases i with
  | ofNat n =>
    have hsp : ∀ c ∈ natDigits (n + 1) n, isSpaceChar c = false := fun c hc =>
      isSpaceChar_of_ge c (by have := natDigits_digit _ _ c hc; omega)
    simp only [sqliteRowidOfText, decimalText, trim_none _ hsp]
    have hr := readDigits_natDigits (n + 1) n (by omega)
    cases hl : natDigits (n + 1) n with
    | nil => exact absurd hl (natDigits_ne_nil n n)
    | cons c cs =>
      have hc := natDigits_digit (n + 1) n c (by rw [hl]; exact List.mem_cons_self _ _)
      have h1 : c ≠ '-' := by rintro rfl; revert hc; decide
      have h2 : c ≠ '+' := by rintro rfl; revert hc; decide
      rw [hl] at hr
      simp [readSigned, h1, h2, hr]
  | negSucc n =>
    have hsp : ∀ c ∈ '-' :: natDigits (n + 2) (n + 1), isSpaceChar c = false := by
      intro c hc
      rcases List.mem_cons.mp hc with rfl | hc
      · rfl
      · exact isSpaceChar_of_ge c (by have := natDigits_digit _ _ c hc; omega)
    simp only [sqliteRowidOfText, decimalText, trim_none _ hsp]
    have hr := readDigits_natDigits (n + 2) (n + 1) (by omega)
    cases hl : natDigits (n + 2) (n + 1) with
    | nil => exact absurd hl (natDigits_ne_nil (n + 1) (n + 1))
    | cons c cs =>
      rw [hl] at hr
      simp only [readSigned, if_true, hr, Option.map_some']
      rw [Int.negSucc_eq]
      rfl

/-! ### Rowid allocation and the writing statements -/

lemma maxRowid_none (rows : List Task) (h : maxRowid rows = none) : rows = [] := by
  cases rows with
  | nil => rfl
  | cons t ts =>
    simp only [maxRowid] at h
    split at h <;> simp at h

lemma maxRowid_ge (rows : List Task) (m : Int) (h : maxRowid rows = some m) :
    ∀ t ∈ rows, t.Id ≤ m := by
  induction rows generalizing m with
  | nil => simp
  | cons t ts ih =>
    simp only [maxRowid] at h
    intro r hr
    split at h
    · rename_i hn
      have : ts = [] := maxRowid_none ts hn
      subst this
      simp only [Option.some.injEq] at h
      simp only [List.mem_singleton] at hr
      subst hr
      omega
    · rename_i m1 hm1
      simp only [Option.some.injEq] at h
      rcases List.mem_cons.mp hr with rfl | hr1
      · have := le_max_left r.Id m1
        omega
      · have h1 := ih m1 hm1 r hr1
        have := le_max_right t.Id m1
        omega

/-- A new rowid exceeds every rowid in the table and the counter. -/
lemma newRowid_gt (s : Store) (v : Int) (h : newRowid s = some v) :
    (∀ t ∈ s.rows, t.Id < v) ∧ s.seq < v := by
  simp only [newRowid] at h
  split at h
  · rename_i hn
    have hr : s.rows = [] := maxRowid_none _ hn
    split at h
    · simp at h
    · simp only [Option.some.injEq] at h
      have := le_max_right (1 : Int) (s.seq + 1)
      constructor
      · simp [hr]
      · omega
  · rename_i m hm
    split at h
    · simp at h
    · simp only [Option.some.injEq] at h
      have h1 := le_max_left (m + 1) (s.seq + 1)
      have h2 := le_max_right (m + 1) (s.seq + 1)
      constructor
      · intro t ht
        have := maxRowid_ge _ m hm t ht
        omega
      · omega

/-- What `InsertTask` computes. -/
lemma InsertTask_eq (s : Store) (t : Task) :
    InsertTask s t =
      (match newRowid s with
       | none => (0, some errFull, s)
       | some v => (v, none, ⟨s.rows ++ [⟨v, t.Date, t.Title, t.Comment, t.Repeat⟩], v⟩)) := by
  simp only [InsertTask]
  cases newRowid s with
  | none => rfl
  | some v => simp [lookupArg, bindString, notNull]

lemma filter_eq_nil_of_forall {α : Type} (p : α → Bool) (l : List α) (h : ∀ a ∈ l, p a = false) :
    l.filter p = [] := by
  induction l with
  | nil => rfl
  | cons x xs ih =>
    have hx := h x (List.mem_cons_self _ _)
    simp only [List.filter, hx]
    exact ih (fun a ha => h a (List.mem_cons_of_mem _ ha))

/-- Rows the `WHERE id = :id` of `UpdateTask` selects. -/
lemma evalCond_id_int (E : Engine) (task t : Task) :
    evalCond E [("date", bindString task.Date), ("title", bindString task.Title),
      ("comment", bindString task.Comment), ("repeat", bindString task.Repeat),
      ("id", bindInt task.Id)] t (Cond.eq Column.cId "id") = decide (t.Id = task.Id) := by
  simp [evalCond, valueEq, lookupArg, bindInt, Task.cell]

/-- What `UpdateTask` computes. -/
lemma UpdateTask_eq (E : Engine) (s : Store) (task : Task) :
    UpdateTask E s task =
      (if (s.rows.filter (fun t => decide (t.Id = task.Id))).length = 0 then
        (Task.zero, some ⟨"failed to update"⟩,
          ⟨s.rows.map (fun t => if t.Id = task.Id then
            ⟨t.Id, task.Date, task.Title, task.Comment, task.Repeat⟩ else t), s.seq⟩)
       else
        (task, none,
          ⟨s.rows.map (fun t => if t.Id = task.Id then
            ⟨t.Id, task.Date, task.Title, task.Comment, task.Repeat⟩ else t), s.seq⟩)) := by
  simp only [UpdateTask, evalCond_id_int]
  simp [lookupArg, bindString, notNull]

/-- What `DeleteTaskDb` computes. -/
lemma DeleteTaskDb_eq (E : Engine) (s : Store) (id : String) :
    DeleteTaskDb E s id =
      (if (s.rows.filter (fun t => decide (E.rowidOfText id = some t.Id))).length = 0 then
        (some ⟨"failed to delete"⟩,
          ⟨s.rows.filter (fun t => !decide (E.rowidOfText id = some t.Id)), s.seq⟩)
       else
        (none, ⟨s.rows.filter (fun t => !decide (E.rowidOfText id = some t.Id)), s.seq⟩)) := by
  simp only [DeleteTaskDb, evalCond_id_text]

lemma InsertTask_seq (s : Store) (t : Task) :
    s.seq ≤ (InsertTask s t).2.2.seq ∧
      ((InsertTask s t).2.1 = none → s.seq < (InsertTask s t).1 ∧
        (InsertTask s t).1 = (InsertTask s t).2.2.seq) := by
  rw [InsertTask_eq]
  cases h : newRowid s with
  | none => simp [errFull]
  | some v =>
    have := (newRowid_gt s v h).2
    simp only [true_implies, and_true]
    constructor <;> omega

lemma UpdateTask_seq (E : Engine) (s : Store) (t : Task) : (UpdateTask E s t).2.2.seq = s.seq := by
  rw [UpdateTask_eq]
  split <;> rfl

lemma DeleteTaskDb_seq (E : Engine) (s : Store) (id : String) :
    (DeleteTaskDb E s id).2.seq = s.seq := by
  rw [DeleteTaskDb_eq]
  split <;> rfl

/-- Along a history the counter never falls, and every id handed out lies
above the counter at the start and at most at the counter at the end. -/
lemma run_seq (E : Engine) (calls : List Call) (s : Store) :
    s.seq ≤ (run E s calls).1.seq ∧
      ∀ j ∈ (run E s calls).2, s.seq < j ∧ j ≤ (run E s calls).1.seq := by
  induction calls generalizing s with
  | nil => simp [run]
  | cons c cs ih =>
    cases c with
    | insert t =>
      have hI := InsertTask_seq s t
      simp only [run]
      rcases hres : InsertTask s t with ⟨i, e, s1⟩
      rw [hres] at hI
      simp only at hI
      have ih1 := ih s1
      cases e with
      | none =>
        have h2 := hI.2 rfl
        simp only
        refine ⟨by omega, ?_⟩
        intro j hj
        rcases List.mem_cons.mp hj with rfl | hj
        · constructor
          · exact h2.1
          · rw [h2.2]; exact ih1.1
        · have := ih1.2 j hj
          constructor
          · omega
          · exact this.2
      | some err =>
        simp only
        refine ⟨by omega, ?_⟩
        intro j hj
        have := ih1.2 j hj
        constructor
        · omega
        · exact this.2
    | update t =>
      simp only [run]
      have h := UpdateTask_seq E s t
      have ih1 := ih (UpdateTask E s t).2.2
      rw [h] at ih1
      exact ih1
    | delete id =>
      simp only [run]
      have h := DeleteTaskDb_seq E s id
      have ih1 := ih (DeleteTaskDb E s id).2
      rw [h] at ih1
      exact ih1

/-! ### The first rows by `Date` -/

/-- The cut `take n` of the rows sorted by `Date`, with the rows it leaves
out: what `ORDER BY date ASC LIMIT n` keeps of a list of rows. -/
lemma take_sortBy_date (n : Nat) (rows : List Task) :
    ((sortBy dateLE rows).take n).length = min n rows.length ∧
      ((sortBy dateLE rows).take n).Pairwise (fun a b => dateLE a b = true) ∧
      ((sortBy dateLE rows).take n ++ (sortBy dateLE rows).drop n).Perm rows ∧
      (∀ a ∈ (sortBy dateLE rows).take n, ∀ b ∈ (sortBy dateLE rows).drop n, dateLE a b = true) ∧
      (rows.length ≤ n → (sortBy dateLE rows).drop n = [] ∧ ((sortBy dateLE rows).take n).Perm rows) := by
  have hperm := sortBy_perm dateLE rows
  have hsorted := sortBy_pairwise dateLE dateLE_total dateLE_trans rows
  have hlen : (sortBy dateLE rows).length = rows.length := hperm.length_eq
  refine ⟨?_, ?_, ?_, ?_, ?_⟩
  · rw [List.length_take, hlen]
  · exact hsorted.sublist (List.take_sublist _ _)
  · rw [List.take_append_drop]
    exact hperm
  · have h := hsorted
    rw [← List.take_append_drop n (sortBy dateLE rows), List.pairwise_append] at h
    exact h.2.2
  · intro hn
    have h1 : (sortBy dateLE rows).length ≤ n := by omega
    constructor
    · exact List.drop_eq_nil_of_le h1
    · rw [List.take_of_length_le h1]
      exact hperm

lemma dateLE_empty (a b : Task) (h : dateLE a b = true) (hb : b.Date = "") : a.Date = "" := by
  simp only [dateLE, hb] at h
  have h1 : a.Date.data = [] := textLE_nil_right _ h
  cases hd : a.Date with
  | mk l =>
    rw [hd] at h1
    simp only at h1
    subst h1
    rfl

lemma mem_take_sortBy (n : Nat) (rows : List Task) (t : Task)
    (h : t ∈ (sortBy dateLE rows).take n) : t ∈ rows :=
  (sortBy_perm dateLE rows).mem_iff.mp (List.mem_of_mem_take h)

/-- With pairwise distinct dates the order of the cut is strict. -/
lemma take_sortBy_date_strict (n : Nat) (rows : List Task) (hn : rows.length ≤ n)
    (hd : (rows.map Task.Date).Nodup) :
    ((sortBy dateLE rows).take n).Pairwise (fun a b => dateLE a b = true ∧ a.Date ≠ b.Date) := by
  have h := take_sortBy_date n rows
  have hperm := (h.2.2.2.2 hn).2
  have hnd : (((sortBy dateLE rows).take n).map Task.Date).Nodup :=
    (List.Perm.nodup_iff (hperm.map Task.Date)).mpr hd
  have hne : ((sortBy dateLE rows).take n).Pairwise (fun a b => a.Date ≠ b.Date) := by
    rw [List.Nodup, List.pairwise_map] at hnd
    exact hnd
  exact h.2.1.and hne

/-! ### Patterns that match everything -/

lemma patternCompare_percent_cons (p s : List Char) (h : patternCompare p s = true) :
    patternCompare ('%' :: p) s = true := by
  simp only [patternCompare, if_true, List.any_eq_true]
  exact ⟨s, (List.mem_tails _ _).mpr (List.suffix_refl s), h⟩

lemma patternCompare_percent (s : List Char) : patternCompare ['%'] s = true := by
  simp only [patternCompare, if_true, List.any_eq_true]
  exact ⟨[], (List.mem_tails _ _).mpr List.nil_suffix, rfl⟩

lemma searchHit_empty (t : Task) : searchHit ("%" ++ "" ++ "%") t = true := by
  have hp : cText ("%" ++ "" ++ "%" : String).data = ['%', '%'] := rfl
  simp only [searchHit, likeMatch, hp, Bool.or_eq_true]
  left
  exact patternCompare_percent_cons _ _ (patternCompare_percent _)

lemma searchHit_percent (t : Task) : searchHit ("%" ++ "%" ++ "%") t = true := by
  have hp : cText ("%" ++ "%" ++ "%" : String).data = ['%', '%', '%'] := rfl
  simp only [searchHit, likeMatch, hp, Bool.or_eq_true]
  left
  exact patternCompare_percent_cons _ _
    (patternCompare_percent_cons _ _ (patternCompare_percent _))

/-! ### Bytes of a pattern -/

lemma utf8Length_foldl (l : List Char) (n : Nat) :
    l.foldl (fun n c => n + utf8Size c) n = n + utf8Length l := by
  induction l generalizing n with
  | nil => rfl
  | cons c cs ih =>
    simp only [utf8Length, List.foldl_cons]
    rw [ih (n + utf8Size c), ih (0 + utf8Size c)]
    omega

lemma utf8Length_cons (c : Char) (cs : List Char) :
    utf8Length (c :: cs) = utf8Size c + utf8Length cs := by
  simp only [utf8Length, List.foldl_cons]
  rw [utf8Length_foldl]
  simp [utf8Length]

lemma utf8Length_append (a b : List Char) :
    utf8Length (a ++ b) = utf8Length a + utf8Length b := by
  simp only [utf8Length, List.foldl_append]
  rw [utf8Length_foldl]
  simp [utf8Length]

/-- The pattern of `SearchTasks` has two bytes more than the search text. -/
lemma utf8Length_pattern (search : String) :
    utf8Length ("%" ++ search ++ "%").data = utf8Length search.data + 2 := by
  have hd : ("%" ++ search ++ "%").data = '%' :: (search.data ++ ['%']) := by
    simp [String.data_append]
  rw [hd, utf8Length_cons, utf8Length_append, utf8Length_cons]
  have h1 : utf8Size '%' = 1 := rfl
  have h2 : utf8Length [] = 0 := rfl
  omega

lemma utf8Length_replicate (n : Nat) : utf8Length (List.replicate n 'a') = n := by
  induction n with
  | zero => rfl
  | succ k ih =>
    rw [List.replicate_succ, utf8Length_cons, ih]
    have h1 : utf8Size 'a' = 1 := rfl
    omega

/-- A search text of `n` letters `a` gives a pattern of `n + 2` bytes. -/
lemma utf8Length_pattern_replicate (n : Nat) :
    utf8Length ("%" ++ String.mk (List.replicate n 'a') ++ "%").data = n + 2 := by
  rw [utf8Length_pattern]
  exact congrArg (· + 2) (utf8Length_replicate n)

lemma filter_all {α : Type} (p : α → Bool) (l : List α) (h : ∀ a, p a = true) :
    l.filter p = l := by
  induction l with
  | nil => rfl
  | cons x xs ih => simp [List.filter, h x, ih]

lemma slice_of_list_toList (l : List Task) :
    (match l with
      | [] => (Slice.nil : Slice Task)
      | t :: ts => Slice.mk (t :: ts)).toList = l := by
  cases l <;> rfl

/-! ### Deleting under a primary key -/

/-- C1: after a successful `InsertTask` that returned the id `i`, `ReadTask`
called with the decimal text of `i` on the store the insertion left
succeeds and returns the task with `Id = i` and the `Date`, `Title`,
`Comment`, `Repeat` of the inserted task. -/
theorem ReadTask_after_InsertTask (s : Store) (t : Task) (i : Int) (s1 : Store)
    (h : InsertTask s t = (i, none, s1)) :
    ReadTask sqlite s1 (decimalText i) = (⟨i, t.Date, t.Title, t.Comment, t.Repeat⟩, none) := by
  rw [InsertTask_eq] at h
  cases hv : newRowid s with
  | none => rw [hv] at h; simp [errFull] at h
  | some v =>
    rw [hv] at h
    simp only [Prod.mk.injEq, true_and] at h
    obtain ⟨hi, hs⟩ := h
    subst hi
    subst hs
    have hfresh := (newRowid_gt s v hv).1
    rw [ReadTask_eq]
    have hconv : sqlite.rowidOfText (decimalText v) = some v := sqliteRowidOfText_decimalText v
    have hold : s.rows.filter (fun r => decide (sqlite.rowidOfText (decimalText v) = some r.Id)) = [] := by
      apply filter_eq_nil_of_forall
      intro r hr
      have := hfresh r hr
      rw [hconv]
      simp only [Option.some.injEq, decide_eq_false_iff_not]
      omega
    simp only [List.filter_append, hold, List.nil_append]
    simp [List.filter, hconv]

/-- C1, at a store with two rows, one of them deleted before: the third task
gets the id 3 and is read back under the text "3". -/
theorem ReadTask_after_InsertTask_witness :
    InsertTask ⟨[⟨1, "20240102", "Title A", "", ""⟩], 2⟩ ⟨0, "20240105", "Buy milk", "2 l", "d 7"⟩
        = (3, none, ⟨[⟨1, "20240102", "Title A", "", ""⟩, ⟨3, "20240105", "Buy milk", "2 l", "d 7"⟩], 3⟩)
      ∧ ReadTask sqlite
          ⟨[⟨1, "20240102", "Title A", "", ""⟩, ⟨3, "20240105", "Buy milk", "2 l", "d 7"⟩], 3⟩
          (decimalText 3) = (⟨3, "20240105", "Buy milk", "2 l", "d 7"⟩, none) :=
  ⟨by decide,
   ReadTask_after_InsertTask ⟨[⟨1, "20240102", "Title A", "", ""⟩], 2⟩
     ⟨0, "20240105", "Buy milk", "2 l", "d 7"⟩ 3 _ (by decide)⟩

/-- C3: in the store any history of `InsertTask`, `UpdateTask` and
`DeleteTaskDb` calls leads to from the fresh store, a successful
`InsertTask` returns an id strictly greater than every id an earlier
`InsertTask` of the history returned, and than every id in the table. -/
theorem InsertTask_id_strictly_increasing (E : Engine) (calls : List Call) (t : Task)
    (i : Int) (s1 : Store)
    (h : InsertTask (run E Store.init calls).1 t = (i, none, s1)) :
    (∀ j ∈ (run E Store.init calls).2, j < i) ∧
      (∀ r ∈ (run E Store.init calls).1.rows, r.Id < i) := by
  have hrun := run_seq E calls Store.init
  rw [InsertTask_eq] at h
  cases hv : newRowid (run E Store.init calls).1 with
  | none => rw [hv] at h; simp [errFull] at h
  | some v =>
    rw [hv] at h
    simp only [Prod.mk.injEq, true_and] at h
    obtain ⟨hi, -⟩ := h
    subst hi
    have hgt := newRowid_gt _ v hv
    constructor
    · intro j hj
      have := (hrun.2 j hj).2
      omega
    · exact hgt.1

/-- C3, on a history that inserts twice, deletes the row with id 2 and
inserts again: the next insertion returns 4, not the freed 2 or the 3. -/
theorem InsertTask_id_strictly_increasing_witness :
    (run sqlite Store.init
        [Call.insert ⟨0, "20240101", "a", "", ""⟩, Call.insert ⟨0, "20240102", "b", "", ""⟩,
         Call.delete "2", Call.insert ⟨0, "20240103", "c", "", ""⟩]).2 = [1, 2, 3]
      ∧ (∀ j ∈ (run sqlite Store.init
        [Call.insert ⟨0, "20240101", "a", "", ""⟩, Call.insert ⟨0, "20240102", "b", "", ""⟩,
         Call.delete "2", Call.insert ⟨0, "20240103", "c", "", ""⟩]).2, j < 4) :=
  ⟨by decide,
   (InsertTask_id_strictly_increasing sqlite
      [Call.insert ⟨0, "20240101", "a", "", ""⟩, Call.insert ⟨0, "20240102", "b", "", ""⟩,
       Call.delete "2", Call.insert ⟨0, "20240103", "c", "", ""⟩]
      ⟨0, "20240104", "d", "", ""⟩ 4
      ⟨[⟨1, "20240101", "a", "", ""⟩, ⟨3, "20240103", "c", "", ""⟩,
        ⟨4, "20240104", "d", "", ""⟩], 4⟩ (by decide)).1⟩

/-- C4: `GetTasks` succeeds with a non-nil slice `l` of at most 20 tasks, all
of them stored rows, in non-decreasing `Date` order with the empty `Date`
first; `l` together with the rows left out is the table, and no row left out
has a `Date` below one of `l`.  With at most 20 rows nothing is left out
(strictly ascending when the dates are distinct); with more than 20 rows
`l` has exactly 20. -/
theorem GetTasks_first_twenty_by_date (E : Engine) (s : Store) :
    ∃ l rest : List Task,
      GetTasks E s = (Slice.mk l, none) ∧
      l.length ≤ 20 ∧
      (∀ t ∈ l, t ∈ s.rows) ∧
      l.Pairwise (fun a b => dateLE a b = true) ∧
      l.Pairwise (fun a b => b.Date = "" → a.Date = "") ∧
      (l ++ rest).Perm s.rows ∧
      (∀ a ∈ l, ∀ b ∈ rest, dateLE a b = true) ∧
      (s.rows.length ≤ 20 → rest = [] ∧ l.Perm s.rows ∧
        ((s.rows.map Task.Date).Nodup →
          l.Pairwise (fun a b => dateLE a b = true ∧ a.Date ≠ b.Date))) ∧
      (20 < s.rows.length → l.length = 20) := by
  have h := take_sortBy_date 20 s.rows
  refine ⟨(sortBy dateLE s.rows).take 20, (sortBy dateLE s.rows).drop 20, GetTasks_eq E s,
    ?_, ?_, h.2.1, ?_, h.2.2.1, h.2.2.2.1, ?_, ?_⟩
  · rw [h.1]; exact Nat.min_le_left _ _
  · exact fun t ht => mem_take_sortBy 20 s.rows t ht
  · exact h.2.1.imp (fun {a b} hab hb => dateLE_empty a b hab hb)
  · intro hn
    exact ⟨(h.2.2.2.2 hn).1, (h.2.2.2.2 hn).2, take_sortBy_date_strict 20 s.rows hn⟩
  · intro hn
    rw [h.1]
    omega

/-- C5 fails on the code: over a store whose only task is titled "Other",
`SearchTasks("ti")` matches nothing and returns the `nil` slice (with a `nil`
error), where `GetTasks` on the empty store returns the empty, non-nil
slice. -/
theorem SearchTasks_no_match_returns_nil :
    SearchTasks sqlite ⟨[⟨1, "20240101", "Other", "", ""⟩], 1⟩ "ti" = (Slice.nil, none) ∧
      GetTasks sqlite Store.init = (Slice.empty, none) ∧
      (Slice.nil : Slice Task) ≠ Slice.empty := by
  decide

/-- C10 fails on the code: the statement text of `SearchTasksByDate` has
`ASC` right after the condition, with no `ORDER BY`, so preparing it fails;
for every store and every date the function returns the empty slice and the
engine's error, and no row. -/
theorem SearchTasksByDate_always_fails (E : Engine) (s : Store) (date : String) :
    SearchTasksByDate E s date = (Slice.empty, some ⟨"near \"ASC\": syntax error"⟩) := by
  simp only [SearchTasksByDate, dbQuery, prepare_searchTasksByDate]

/-- C9: `SearchTasks` matches with the `LIKE` pattern `%` + text + `%`, the
text taken verbatim, against `Title` or `Comment`.  For every search text
whose pattern the engine takes as a value: when the pattern is within the
limit of 50000 bytes on `LIKE` patterns (and for every text on an empty
table) it succeeds and returns, in `Date` order and cut at 20, the stored
rows that `LIKE` matches, pattern and text each read up to its first NUL;
for a longer pattern on a table with a row it returns the empty slice and
the engine's error.  For the texts "" and "%" the rows
returned are all stored rows (all of them when there are at most 20, else
20 with the smallest dates).  Over a store holding just the tasks titled
"Title A" and "Other" with empty comments, in either order, the text "ti"
returns "Title A" alone, and the text "%" returns both. -/
theorem SearchTasks_like_pattern (E : Engine) (s : Store) (i1 i2 : Int)
    (d1 r1 d2 r2 : String) (seq : Int) :
    (∀ search : String,
        utf8Length ("%" ++ search ++ "%").data ≤ SQLITE_MAX_LENGTH →
        utf8Length ("%" ++ search ++ "%").data ≤ SQLITE_MAX_LIKE_PATTERN_LENGTH ∨ s.rows = [] →
        ∃ l rest : List Task,
          (SearchTasks E s search).2 = none ∧ (SearchTasks E s search).1.toList = l ∧
          (l ++ rest).Perm (s.rows.filter (searchHit ("%" ++ search ++ "%"))) ∧
          l.length = min 20 (s.rows.filter (searchHit ("%" ++ search ++ "%"))).length ∧
          l.Pairwise (fun a b => dateLE a b = true) ∧
          (∀ a ∈ l, ∀ b ∈ rest, dateLE a b = true)) ∧
      (∀ search : String,
        utf8Length ("%" ++ search ++ "%").data ≤ SQLITE_MAX_LENGTH →
        SQLITE_MAX_LIKE_PATTERN_LENGTH < utf8Length ("%" ++ search ++ "%").data → s.rows ≠ [] →
        SearchTasks E s search = (Slice.empty, some errLikeTooComplex)) ∧
      (∀ search : String, search = "" ∨ search = "%" → ∃ l rest : List Task,
        (SearchTasks E s search).2 = none ∧ (SearchTasks E s search).1.toList = l ∧
        (l ++ rest).Perm s.rows ∧
        l.Pairwise (fun a b => dateLE a b = true) ∧
        (∀ a ∈ l, ∀ b ∈ rest, dateLE a b = true) ∧
        (s.rows.length ≤ 20 → l.Perm s.rows) ∧
        (20 < s.rows.length → l.length = 20)) ∧
      SearchTasks E ⟨[⟨i1, d1, "Title A", "", r1⟩, ⟨i2, d2, "Other", "", r2⟩], seq⟩ "ti"
        = (Slice.mk [⟨i1, d1, "Title A", "", r1⟩], none) ∧
      SearchTasks E ⟨[⟨i2, d2, "Other", "", r2⟩, ⟨i1, d1, "Title A", "", r1⟩], seq⟩ "ti"
        = (Slice.mk [⟨i1, d1, "Title A", "", r1⟩], none) ∧
      (SearchTasks E ⟨[⟨i1, d1, "Title A", "", r1⟩, ⟨i2, d2, "Other", "", r2⟩], seq⟩ "%").1.toList.Perm
        [⟨i1, d1, "Title A", "", r1⟩, ⟨i2, d2, "Other", "", r2⟩] := by
  have hall : ∀ (st : Store) (search : String), search = "" ∨ search = "%" →
      st.rows.filter (searchHit ("%" ++ search ++ "%")) = st.rows := by
    intro st search hs
    rcases hs with rfl | rfl
    · exact filter_all _ _ searchHit_empty
    · exact filter_all _ _ searchHit_percent
  have hshort : ∀ search : String, search = "" ∨ search = "%" →
      utf8Length ("%" ++ search ++ "%").data ≤ SQLITE_MAX_LIKE_PATTERN_LENGTH := by
    intro search hs
    rcases hs with rfl | rfl <;> decide
  have hti : utf8Length ("%" ++ "ti" ++ "%").data ≤ SQLITE_MAX_LIKE_PATTERN_LENGTH := by
    decide
  have hgen : ∀ (st : Store) (search : String),
      utf8Length ("%" ++ search ++ "%").data ≤ SQLITE_MAX_LIKE_PATTERN_LENGTH ∨ st.rows = [] →
      (SearchTasks E st search).2 = none ∧
      (SearchTasks E st search).1.toList
        = (sortBy dateLE (st.rows.filter (searchHit ("%" ++ search ++ "%")))).take 20 := by
    intro st search h
    rw [SearchTasks_eq E st search h]
    exact ⟨rfl, slice_of_list_toList _⟩
  have hA : searchHit ("%" ++ "ti" ++ "%") ⟨i1, d1, "Title A", "", r1⟩ = true := rfl
  have hO : searchHit ("%" ++ "ti" ++ "%") ⟨i2, d2, "Other", "", r2⟩ = false := rfl
  refine ⟨?_, ?_, ?_, ?_, ?_, ?_⟩
  · intro search _ hlim
    have h := take_sortBy_date 20 (s.rows.filter (searchHit ("%" ++ search ++ "%")))
    exact ⟨_, (sortBy dateLE (s.rows.filter (searchHit ("%" ++ search ++ "%")))).drop 20,
      (hgen s search hlim).1, (hgen s search hlim).2, h.2.2.1, h.1, h.2.1, h.2.2.2.1⟩
  · intro search _ hlim hrows
    exact SearchTasks_too_complex E s search hlim hrows
  · intro search hs
    have h := take_sortBy_date 20 s.rows
    have hg := hgen s search (Or.inl (hshort search hs))
    refine ⟨(sortBy dateLE s.rows).take 20, (sortBy dateLE s.rows).drop 20, hg.1, ?_,
      h.2.2.1, h.2.1, h.2.2.2.1, fun hn => (h.2.2.2.2 hn).2, ?_⟩
    · rw [hg.2, hall s search hs]
    · intro hn
      rw [h.1]
      omega
  · rw [SearchTasks_eq _ _ _ (Or.inl hti)]
    simp only [List.filter, hA, hO]
    rfl
  · rw [SearchTasks_eq _ _ _ (Or.inl hti)]
    simp only [List.filter, hA, hO]
    rfl
  · rw [(hgen _ "%" (Or.inl (hshort "%" (Or.inr rfl)))).2, hall _ "%" (Or.inr rfl)]
    have h := take_sortBy_date 20
      [(⟨i1, d1, "Title A", "", r1⟩ : Task), ⟨i2, d2, "Other", "", r2⟩]
    exact (h.2.2.2.2 (by simp)).2

/-- C9, at concrete rows: "ti" finds "Title A" by its capital `T`; "%" finds
both rows although neither holds a `%`; "_h" finds "Other", the `_` standing
for any one character; a title is searched up to its first NUL only; and a
search text of 49999 bytes, whose pattern has 50001, ends in the engine's
error. -/
theorem SearchTasks_like_pattern_witness :
    SearchTasks sqlite ⟨[⟨1, "20240102", "Title A", "", ""⟩, ⟨2, "20240101", "Other", "", ""⟩], 2⟩
        "ti" = (Slice.mk [⟨1, "20240102", "Title A", "", ""⟩], none) ∧
      SearchTasks sqlite ⟨[⟨1, "20240102", "Title A", "", ""⟩, ⟨2, "20240101", "Other", "", ""⟩], 2⟩
        "%" = (Slice.mk [⟨2, "20240101", "Other", "", ""⟩, ⟨1, "20240102", "Title A", "", ""⟩],
          none) ∧
      SearchTasks sqlite ⟨[⟨1, "20240102", "Title A", "", ""⟩, ⟨2, "20240101", "Other", "", ""⟩], 2⟩
        "_h" = (Slice.mk [⟨2, "20240101", "Other", "", ""⟩], none) ∧
      SearchTasks sqlite ⟨[⟨1, "20240102", String.mk ['a', Char.ofNat 0, 'b'], "", ""⟩], 1⟩ "b"
        = (Slice.nil, none) ∧
      SearchTasks sqlite ⟨[⟨1, "20240102", String.mk ['a', Char.ofNat 0, 'b'], "", ""⟩], 1⟩ "a"
        = (Slice.mk [⟨1, "20240102", String.mk ['a', Char.ofNat 0, 'b'], "", ""⟩], none) ∧
      SearchTasks sqlite ⟨[⟨1, "20240102", "Title A", "", ""⟩], 1⟩
        (String.mk (List.replicate 49999 'a')) = (Slice.empty, some errLikeTooComplex) :=
  ⟨(SearchTasks_like_pattern sqlite Store.init 1 2 "20240102" "" "20240101" "" 2).2.2.2.1,
   by decide, by decide, by decide, by decide,
   (SearchTasks_like_pattern sqlite ⟨[⟨1, "20240102", "Title A", "", ""⟩], 1⟩
      1 2 "" "" "" "" 0).2.1 (String.mk (List.replicate 49999 'a'))
     (by rw [utf8Length_pattern_replicate]; decide)
     (by rw [utf8Length_pattern_replicate]; decide) (by simp)⟩

end Database
